import Mathlib

/-!
Verification of the hype-whale-monitor repository's algorithmic core:
the liquidation-cascade simulator (src/lib/impact-utils.ts), the
position-trigger engine, and the position-lifecycle exit logic
(simulator page component).

Numbers are modelled as rationals.  `Math.exp` is an external
transcendental primitive; it is modelled as an explicit function
argument `expFn : ℚ → ℚ` threaded through the simulator, so every
theorem quantifying over `expFn` holds for any model of `exp`.
Strings interpolated into trace descriptions are modelled by an
inductive `StepDesc` carrying the interpolated numeric payloads.
-/

set_option maxRecDepth 4000

namespace HypeMonitor

/-- One rung of order-book bid depth as received from the feed
(`L2BookLevel` in src/lib/types.ts: string-valued `px`/`sz`).
`Number(...)` parsing of a string yields either a rational or `NaN`;
a `NaN` parse is modelled as `none`. -/
structure L2BookLevel where
  px : Option ℚ
  sz : Option ℚ
  deriving DecidableEq

/-- A parsed, validated bid (after the simulator's map/filter step). -/
structure Bid where
  px : ℚ
  sz : ℚ
  deriving DecidableEq

/-- Liquidation heatmap entry (numeric fields of
`LiquidationHeatmapEntry` in src/lib/types.ts). -/
structure LiquidationHeatmapEntry where
  priceBinStart : ℚ
  priceBinEnd : ℚ
  liquidationValue : ℚ
  deriving DecidableEq

/-- Tunable coefficients of the liquidation-density model
(`SimulationParams` in src/lib/impact-utils.ts). -/
structure SimulationParams where
  k : ℚ
  a : ℚ
  x0 : ℚ
  longRatio : ℚ
  deriving DecidableEq

/-- Default parameters from the source:
`{ k: 0.18, a: 14, x0: 0.05, longRatio: 0.6 }`. -/
def defaultParams : SimulationParams :=
  { k := 18/100, a := 14, x0 := 5/100, longRatio := 60/100 }

/-- The description string of a trace step, abstracted to the
interpolated numeric payloads (string formatting is presentation).
`intersectionHit` is the message of impact-utils.ts line 104,
`scanning` the message of line 115, `noFloor` the constant message of
line 127. -/
inductive StepDesc where
  | intersectionHit (floorPrice cumSellHype : ℚ)
  | scanning (binPrice cumSellHype cumBidHype : ℚ)
  | noFloor
  deriving DecidableEq

/-- One observable point of the simulation trace
(`CascadeResult["steps"]` element). -/
structure CascadeStep where
  startPrice : ℚ
  endPrice : ℚ
  liquidatedValue : ℚ
  description : StepDesc
  deriving DecidableEq

/-- Result of the cascade simulation (`CascadeResult`). -/
structure CascadeResult where
  finalPrice : ℚ
  totalLiquidationTriggered : ℚ
  steps : List CascadeStep
  deriving DecidableEq

/-- `BINS_COUNT = 100` (impact-utils.ts line 56). -/
def BINS_COUNT : ℕ := 100

/-- `RANGE_PCT = 0.20` (impact-utils.ts line 57). -/
def RANGE_PCT : ℚ := 20/100

/-- `binStep = (currentPriceNum * RANGE_PCT) / BINS_COUNT`
(impact-utils.ts line 58). -/
def binStep (currentPrice : ℚ) : ℚ := currentPrice * RANGE_PCT / (BINS_COUNT : ℚ)

/-- Bid parsing of impact-utils.ts lines 49-52: map `Number` over
`px`/`sz`, drop entries with a `NaN` field, sort by price descending. -/
def parseBids (bids : List L2BookLevel) : List Bid :=
  List.insertionSort (fun a b => a.px ≥ b.px)
    (bids.filterMap (fun b =>
      match b.px, b.sz with
      | some px, some sz => some ⟨px, sz⟩
      | _, _ => none))

/-- Incremental sell pressure of one bin at (already decremented) bin
price `bp` (impact-utils.ts lines 69-79): zero unless
`drawdownPct > x0`, else `OI_long * intensity * (binStep / currentPrice)`
with `intensity = k * exp(a * (drawdownPct - x0))`. -/
def sellIncrement (expFn : ℚ → ℚ) (params : SimulationParams)
    (currentPrice OIlong bp : ℚ) : ℚ :=
  let drawdownPct := (currentPrice - bp) / currentPrice
  if drawdownPct > params.x0 then
    OIlong * (params.k * expFn (params.a * (drawdownPct - params.x0))) *
      (binStep currentPrice / currentPrice)
  else 0

/-- Cumulative bid depth update of one bin (impact-utils.ts lines
86-90): add the size of every active bid whose price lies in
`[bp, bp + binStep)` to the running total. -/
def bidSum (activeBids : List Bid) (bp step cumBid : ℚ) : ℚ :=
  activeBids.foldl
    (fun acc b => if b.px ≥ bp ∧ b.px < bp + step then acc + b.sz else acc)
    cumBid

/-- Mutable state of the scan loop of impact-utils.ts lines 60-64. -/
structure ScanState where
  currentBinPrice : ℚ
  cumSellHype : ℚ
  cumBidHype : ℚ
  floorPrice : ℚ
  foundFloor : Bool
  steps : List CascadeStep
  deriving DecidableEq

/-- One iteration of the scan loop (impact-utils.ts lines 67-118),
at loop index `i`.  The bin price is decremented first; the
intersection check (lines 95-107) precedes the visualization step
(lines 110-117), which reads the updated `foundFloor`. -/
def scanBin (expFn : ℚ → ℚ) (targetPrice currentPrice OIlong : ℚ)
    (activeBids : List Bid) (params : SimulationParams)
    (i : ℕ) (s : ScanState) : ScanState :=
  let step := binStep currentPrice
  let bp := s.currentBinPrice - step
  let stepSellHype := sellIncrement expFn params currentPrice OIlong bp
  let cumSell := s.cumSellHype + stepSellHype
  let cumBid := bidSum activeBids bp step s.cumBidHype
  if s.foundFloor = false ∧ bp ≤ targetPrice ∧ cumSell ≥ cumBid then
    { currentBinPrice := bp, cumSellHype := cumSell, cumBidHype := cumBid,
      floorPrice := bp, foundFloor := true,
      steps := s.steps ++
        [⟨currentPrice, bp, cumSell * bp, StepDesc.intersectionHit bp cumSell⟩] }
  else if i % 25 = 0 ∧ bp ≤ targetPrice ∧ s.foundFloor = false then
    { currentBinPrice := bp, cumSellHype := cumSell, cumBidHype := cumBid,
      floorPrice := s.floorPrice, foundFloor := s.foundFloor,
      steps := s.steps ++
        [⟨bp + step, bp, stepSellHype * bp, StepDesc.scanning bp cumSell cumBid⟩] }
  else
    { currentBinPrice := bp, cumSellHype := cumSell, cumBidHype := cumBid,
      floorPrice := s.floorPrice, foundFloor := s.foundFloor,
      steps := s.steps }

/-- The scan state after `n` loop iterations, starting from the
initial state of impact-utils.ts lines 60-64
(`currentBinPrice = currentPrice`, accumulators zero,
`floorPrice = targetPrice`, `foundFloor = false`). -/
def stateAfter (expFn : ℚ → ℚ) (targetPrice currentPrice OIlong : ℚ)
    (activeBids : List Bid) (params : SimulationParams) : ℕ → ScanState
  | 0 => ⟨currentPrice, 0, 0, targetPrice, false, []⟩
  | n + 1 => scanBin expFn targetPrice currentPrice OIlong activeBids params n
      (stateAfter expFn targetPrice currentPrice OIlong activeBids params n)

/-- `simulateLongCascade` (impact-utils.ts lines 31-136).  Runs the
100-bin scan; if no intersection was found, the floor defaults to the
target price and a terminal `noFloor` step is appended (lines 120-129);
the returned `totalLiquidationTriggered` is
`cumSellHype * floorPrice` with the cumulative sell pressure at the
end of the whole scan (line 133). The `heatmap` argument is accepted
but never consulted by the numeric core, exactly as in the source. -/
def simulateLongCascade (expFn : ℚ → ℚ)
    (targetPrice currentPrice openInterest : ℚ)
    (heatmap : List LiquidationHeatmapEntry) (bids : List L2BookLevel)
    (params : SimulationParams) : CascadeResult :=
  let OIlong := openInterest * params.longRatio
  let activeBids := parseBids bids
  let s := stateAfter expFn targetPrice currentPrice OIlong activeBids params BINS_COUNT
  if s.foundFloor = false then
    { finalPrice := targetPrice,
      totalLiquidationTriggered := s.cumSellHype * targetPrice,
      steps := s.steps ++
        [⟨currentPrice, targetPrice, s.cumSellHype * targetPrice, StepDesc.noFloor⟩] }
  else
    { finalPrice := s.floorPrice,
      totalLiquidationTriggered := s.cumSellHype * s.floorPrice,
      steps := s.steps }

/-- The earliest number of scanned bins after which the floor flag is
set, if any; used to express the spec's phrase "the cumulative sell
pressure accumulated at the moment the floor bin is reached". -/
def floorFoundIndex (expFn : ℚ → ℚ) (targetPrice currentPrice OIlong : ℚ)
    (activeBids : List Bid) (params : SimulationParams) : Option ℕ :=
  (List.range (BINS_COUNT + 1)).find?
    (fun n => (stateAfter expFn targetPrice currentPrice OIlong activeBids params n).foundFloor)

/-- Modelled from the spec: "cumulativeSellPressure_at_floor", the
cumulative sell pressure at the moment the floor bin is reached
(0 when no floor is found). -/
def cumSellAtFloor (expFn : ℚ → ℚ) (targetPrice currentPrice OIlong : ℚ)
    (activeBids : List Bid) (params : SimulationParams) : ℚ :=
  match floorFoundIndex expFn targetPrice currentPrice OIlong activeBids params with
  | some n => (stateAfter expFn targetPrice currentPrice OIlong activeBids params n).cumSellHype
  | none => 0

/-! ### Trigger engine and position lifecycle (simulator page component) -/

/-- Order / position direction. -/
inductive Side where
  | BUY
  | SELL
  deriving DecidableEq

/-- Lifecycle status of a simulated position
(`SimulatedPosition["status"]` in simulated-positions-table.tsx). -/
inductive PositionStatus where
  | OPEN
  | CLOSED_TP
  | CLOSED_SL
  | CLOSED_TIME
  deriving DecidableEq

/-- A simulated position record (simulated-positions-table.tsx).
Optional fields are `Option`; `end_time` is a millisecond timestamp. -/
structure SimulatedPosition where
  id : String
  entry_price : ℚ
  direction : Side
  status : PositionStatus
  amount_usd : ℚ
  leverage : ℚ
  close_price : Option ℚ
  pnl_percent : Option ℚ
  trigger_id : Option String
  end_time : Option ℚ
  deriving DecidableEq

/-- An enriched TWAP order as consumed by `checkTriggers`
(`EnrichedTwap` in src/lib/types.ts).  The interface declares no
`price` field, yet `checkTriggers` reads `t.price`; that access is
modelled as `Option ℚ` (`none` = the field is absent / undefined). -/
structure EnrichedTwap where
  id : String
  time : ℚ
  user : String
  side : Side
  sizeUsd : ℚ
  price : Option ℚ
  durationMinutes : ℚ
  deriving DecidableEq

/-- `t.price || currentPrice`: JavaScript falsy coalescing — an
absent or zero price falls back to the current price. -/
def twapEntryPrice (t : EnrichedTwap) (currentPrice : ℚ) : ℚ :=
  match t.price with
  | some p => if p = 0 then currentPrice else p
  | none => currentPrice

/-- `t.time + (t.durationMinutes * 60 * 1000)`: the end timestamp used
for opened positions. -/
def twapEndTime (t : EnrichedTwap) : ℚ :=
  t.time + t.durationMinutes * 60 * 1000

/-- The `openPosition` call issued when a trigger fires, as a command
value (direction, entry price, trigger id, end timestamp). -/
structure OpenCommand where
  direction : Side
  entryPrice : ℚ
  triggerId : String
  endTime : ℚ
  deriving DecidableEq

/-- `new Set(existingPositions.map(p => p.trigger_id).filter(Boolean))`:
the trigger ids of the supplied positions, dropping absent and empty
(falsy) ids. -/
def existingTriggerIdsOf (positions : List SimulatedPosition) : List String :=
  positions.filterMap (fun p =>
    match p.trigger_id with
    | some s => if s = "" then none else some s
    | none => none)

/-- Rule 1, the large-order trigger (simulator page, `checkTriggers`
lines 137-149): for every order with `sizeUsd > 1,000,000` whose
trigger id `"large_" ++ id` is not yet in the set, emit an open
command and add the id to the set. `largeOrderStep` processes one
order; `largeOrderCommands` folds it over the list, returning the
emitted commands and the augmented id set. -/
def largeOrderStep (currentPrice : ℚ) (acc : List OpenCommand × List String)
    (t : EnrichedTwap) : List OpenCommand × List String :=
  if t.sizeUsd > 1000000 then
    let triggerId := "large_" ++ t.id
    if triggerId ∈ acc.2 then acc
    else (acc.1 ++ [⟨t.side, twapEntryPrice t currentPrice, triggerId, twapEndTime t⟩],
          acc.2 ++ [triggerId])
  else acc

def largeOrderCommands (currentPrice : ℚ) (twaps : List EnrichedTwap)
    (ids : List String) : List OpenCommand × List String :=
  twaps.foldl (largeOrderStep currentPrice) ([], ids)

/-- One sliding-window iteration of the dense-order trigger for one
side: if the window holds ≥ 10 orders of that side and the id
`"dense_" ++ firstId ++ suffix` is fresh, emit a command keyed on the
last order of the window and report the loop-index skip
(`inWindow.length - 1`). -/
def denseSideFire (currentPrice : ℚ) (sideOrders : List EnrichedTwap)
    (inWindow : List EnrichedTwap) (firstId : String) (side : Side)
    (suffix : String) (ids : List String) :
    List OpenCommand × List String × ℕ :=
  if sideOrders.length ≥ 10 then
    let triggerId := "dense_" ++ firstId ++ suffix
    if triggerId ∈ ids then ([], ids, 0)
    else
      match inWindow with
      | [] => ([], ids, 0)
      | h :: tl =>
        let lastTwap := (h :: tl).getLast (List.cons_ne_nil h tl)
        ([⟨side, twapEntryPrice lastTwap currentPrice, triggerId, twapEndTime lastTwap⟩],
         ids ++ [triggerId], inWindow.length - 1)
  else ([], ids, 0)

/-- One iteration body of the dense-order sliding-window loop
(simulator page, `checkTriggers` lines 161-190): anchor the window at
index `i` of the sorted list, keep the orders within 10 minutes
(600,000 ms) of the anchor, and if ≥ 10 of them share a side, fire
that side's trigger (BUY first, then SELL over the already-augmented
id set). Returns the emitted commands, the next loop index (`i` plus
each fired side's `inWindow.length - 1` skip plus the loop
increment), and the updated id set. -/
def denseBody (currentPrice : ℚ) (sorted : List EnrichedTwap) (i : ℕ)
    (ids : List String) : List OpenCommand × ℕ × List String :=
  match sorted.drop i with
  | [] => ([], i + 1, ids)
  | w0 :: rest =>
    let endT := w0.time + 600000
    let inWindow := (w0 :: rest).filter (fun t => t.time ≤ endT)
    if inWindow.length ≥ 10 then
      let buys := inWindow.filter (fun t => t.side = Side.BUY)
      let sells := inWindow.filter (fun t => t.side = Side.SELL)
      let firstId := match inWindow with
        | [] => w0.id
        | h :: _ => h.id
      let buyRes := denseSideFire currentPrice buys inWindow firstId Side.BUY "_BUY" ids
      let sellRes := denseSideFire currentPrice sells inWindow firstId Side.SELL "_SELL" buyRes.2.1
      (buyRes.1 ++ sellRes.1, i + buyRes.2.2 + sellRes.2.2 + 1, sellRes.2.1)
    else ([], i + 1, ids)

/-- Rule 2, the dense-order sliding-window loop (simulator page,
`checkTriggers` lines 160-191), fuel-based: while
`i ≤ sorted.length - 10`, run the window body anchored at `i` and
continue at the index it reports. -/
def denseLoop (currentPrice : ℚ) (sorted : List EnrichedTwap) :
    ℕ → ℕ → List String → List OpenCommand
  | 0, _, _ => []
  | fuel + 1, i, ids =>
    if i ≤ sorted.length - 10 then
      (denseBody currentPrice sorted i ids).1 ++
        denseLoop currentPrice sorted fuel
          (denseBody currentPrice sorted i ids).2.1
          (denseBody currentPrice sorted i ids).2.2
    else []

/-- Rule 2 entry point: sort the orders by time ascending and run the
sliding-window loop if at least 10 orders exist. -/
def denseOrderCommands (currentPrice : ℚ) (twaps : List EnrichedTwap)
    (ids : List String) : List OpenCommand :=
  let sorted := twaps.insertionSort (fun a b => a.time ≤ b.time)
  if sorted.length < 10 then []
  else denseLoop currentPrice sorted sorted.length 0 ids

/-- `checkTriggers` (simulator page lines 130-192): guard against an
empty order list or a zero price, build the existing trigger-id set,
run the large-order pass (which also augments the id set), then the
dense-order pass. The emitted commands are the `openPosition` calls
in program order. -/
def checkTriggers (twaps : List EnrichedTwap) (currentPrice : ℚ)
    (existingPositions : List SimulatedPosition) : List OpenCommand :=
  if twaps.length = 0 ∨ currentPrice = 0 then []
  else
    let ids0 := existingTriggerIdsOf existingPositions
    let largeRes := largeOrderCommands currentPrice twaps ids0
    largeRes.1 ++ denseOrderCommands currentPrice twaps largeRes.2

/-- A `closePosition` call issued by the PnL monitor, as a command
value. -/
structure CloseCommand where
  posId : String
  newStatus : PositionStatus
  closePrice : ℚ
  pnlPercent : ℚ
  deriving DecidableEq

/-- `rawPnl` of the PnL monitor (simulator page lines 207-212). -/
def rawPnl (pos : SimulatedPosition) (hypePrice : ℚ) : ℚ :=
  if pos.direction = Side.BUY then
    (hypePrice - pos.entry_price) / pos.entry_price
  else
    (pos.entry_price - hypePrice) / pos.entry_price

/-- The PnL/time-exit evaluation of one position (simulator page lines
203-228): non-OPEN positions are skipped; otherwise the time exit is
checked first, then take-profit at `pnlPercent ≥ 20`, then stop-loss
at `pnlPercent ≤ -20`. Returns the close command, if any. -/
def evaluatePositionExit (pos : SimulatedPosition) (hypePrice now : ℚ) :
    Option CloseCommand :=
  if pos.status ≠ PositionStatus.OPEN then none
  else
    let pnlPercent := rawPnl pos hypePrice * pos.leverage * 100
    let timeExit : Bool :=
      match pos.end_time with
      | some endT => decide (now > endT)
      | none => false
    if timeExit then some ⟨pos.id, PositionStatus.CLOSED_TIME, hypePrice, pnlPercent⟩
    else if pnlPercent ≥ 20 then some ⟨pos.id, PositionStatus.CLOSED_TP, hypePrice, pnlPercent⟩
    else if pnlPercent ≤ -20 then some ⟨pos.id, PositionStatus.CLOSED_SL, hypePrice, pnlPercent⟩
    else none

/-- Effect of the close command on the stored record (the PATCH of
`closePosition`): set the terminal status, close price and PnL; no
command leaves the record unchanged. -/
def applyExit (pos : SimulatedPosition) (hypePrice now : ℚ) : SimulatedPosition :=
  match evaluatePositionExit pos hypePrice now with
  | none => pos
  | some c =>
    { pos with status := c.newStatus, close_price := some c.closePrice,
               pnl_percent := some c.pnlPercent }

/-- A constant model of `Math.exp`, used to instantiate concrete
simulation runs (the simulator's control flow is independent of the
particular exponential model). -/
def constOneExp : ℚ → ℚ := fun _ => 1

/-- The intersection condition of one scan iteration of
`simulateLongCascade` applied to a scan state (impact-utils.ts lines
95-96): the floor is not yet found, the decremented bin price has
reached the target, and cumulative sell pressure meets cumulative bid
depth. -/
def hitCond (expFn : ℚ → ℚ) (targetPrice currentPrice OIlong : ℚ)
    (activeBids : List Bid) (params : SimulationParams) (s : ScanState) : Prop :=
  s.foundFloor = false ∧ s.currentBinPrice - binStep currentPrice ≤ targetPrice ∧
    s.cumSellHype + sellIncrement expFn params currentPrice OIlong
        (s.currentBinPrice - binStep currentPrice)
      ≥ bidSum activeBids (s.currentBinPrice - binStep currentPrice)
          (binStep currentPrice) s.cumBidHype

instance (expFn : ℚ → ℚ) (targetPrice currentPrice OIlong : ℚ)
    (activeBids : List Bid) (params : SimulationParams) (s : ScanState) :
    Decidable (hitCond expFn targetPrice currentPrice OIlong activeBids params s) := by
  unfold hitCond; infer_instance

/-- `true` exactly on trace steps carrying the terminal
"no cascade floor found" description. -/
def isNoFloorStep (st : CascadeStep) : Bool :=
  match st.description with
  | StepDesc.noFloor => true
  | _ => false

/-- A synthetic BUY TWAP order of size $100 and duration 30 minutes at
time `t`, used to instantiate the dense-cluster scenarios. -/
def mkBuyTwap (nm : String) (t : ℚ) : EnrichedTwap :=
  ⟨nm, t, "u", Side.BUY, 100, none, 30⟩

/-- Ten synthetic BUY orders whose timestamps span 9 minutes. -/
def tenBuyOrdersNine : List EnrichedTwap :=
  [mkBuyTwap "o0" 0, mkBuyTwap "o1" 60000, mkBuyTwap "o2" 120000,
   mkBuyTwap "o3" 180000, mkBuyTwap "o4" 240000, mkBuyTwap "o5" 300000,
   mkBuyTwap "o6" 360000, mkBuyTwap "o7" 420000, mkBuyTwap "o8" 480000,
   mkBuyTwap "o9" 540000]

/-- Ten synthetic BUY orders whose timestamps span 11 minutes. -/
def tenBuyOrdersEleven : List EnrichedTwap :=
  [mkBuyTwap "p0" 0, mkBuyTwap "p1" 60000, mkBuyTwap "p2" 120000,
   mkBuyTwap "p3" 180000, mkBuyTwap "p4" 240000, mkBuyTwap "p5" 300000,
   mkBuyTwap "p6" 360000, mkBuyTwap "p7" 420000, mkBuyTwap "p8" 480000,
   mkBuyTwap "p9" 660000]

/-! ### Supporting lemmas about the scan loop -/

section ScanLemmas

variable (expFn : ℚ → ℚ) (targetPrice currentPrice OIlong : ℚ)
  (activeBids : List Bid) (params : SimulationParams)

lemma scanBin_currentBinPrice (i : ℕ) (s : ScanState) :
    (scanBin expFn targetPrice currentPrice OIlong activeBids params i s).currentBinPrice
      = s.currentBinPrice - binStep currentPrice := by
  unfold scanBin
  dsimp only
  split
  · rfl
  · split <;> rfl

lemma scanBin_cumSellHype (i : ℕ) (s : ScanState) :
    (scanBin expFn targetPrice currentPrice OIlong activeBids params i s).cumSellHype
      = s.cumSellHype + sellIncrement expFn params currentPrice OIlong
          (s.currentBinPrice - binStep currentPrice) := by
  unfold scanBin
  dsimp only
  split
  · rfl
  · split <;> rfl

lemma scanBin_cumBidHype (i : ℕ) (s : ScanState) :
    (scanBin expFn targetPrice currentPrice OIlong activeBids params i s).cumBidHype
      = bidSum activeBids (s.currentBinPrice - binStep currentPrice)
          (binStep currentPrice) s.cumBidHype := by
  unfold scanBin
  dsimp only
  split
  · rfl
  · split <;> rfl

lemma scanBin_hit (i : ℕ) (s : ScanState)
    (h : hitCond expFn targetPrice currentPrice OIlong activeBids params s) :
    (scanBin expFn targetPrice currentPrice OIlong activeBids params i s).foundFloor = true ∧
    (scanBin expFn targetPrice currentPrice OIlong activeBids params i s).floorPrice
      = s.currentBinPrice - binStep currentPrice := by
  obtain ⟨h1, h2, h3⟩ := h
  unfold scanBin
  dsimp only
  rw [if_pos ⟨h1, h2, h3⟩]
  exact ⟨rfl, rfl⟩

lemma scanBin_not_hit (i : ℕ) (s : ScanState)
    (h : ¬ hitCond expFn targetPrice currentPrice OIlong activeBids params s) :
    (scanBin expFn targetPrice currentPrice OIlong activeBids params i s).foundFloor
        = s.foundFloor ∧
    (scanBin expFn targetPrice currentPrice OIlong activeBids params i s).floorPrice
        = s.floorPrice := by
  unfold scanBin
  dsimp only
  rw [if_neg (by unfold hitCond at h; exact h)]
  split <;> exact ⟨rfl, rfl⟩

lemma stateAfter_currentBinPrice (n : ℕ) :
    (stateAfter expFn targetPrice currentPrice OIlong activeBids params n).currentBinPrice
      = currentPrice - n * binStep currentPrice := by
  induction n with
  | zero => simp [stateAfter]
  | succ n ih =>
    rw [stateAfter, scanBin_currentBinPrice, ih]
    push_cast
    ring

lemma stateAfter_floorPrice_le (n : ℕ) :
    (stateAfter expFn targetPrice currentPrice OIlong activeBids params n).floorPrice
      ≤ targetPrice := by
  induction n with
  | zero => exact le_refl _
  | succ n ih =>
    by_cases h : hitCond expFn targetPrice currentPrice OIlong activeBids params
        (stateAfter expFn targetPrice currentPrice OIlong activeBids params n)
    · rw [stateAfter,
        (scanBin_hit expFn targetPrice currentPrice OIlong activeBids params n _ h).2]
      exact h.2.1
    · rw [stateAfter,
        (scanBin_not_hit expFn targetPrice currentPrice OIlong activeBids params n _ h).2]
      exact ih

end ScanLemmas

/-! ### Claim theorems -/

/-- Claim C4: the returned `CascadeResult` does not depend on the
heatmap argument; two calls differing only in the heatmap (including
an empty one) return identical results. -/
theorem simulateLongCascade_heatmap_irrelevant (expFn : ℚ → ℚ)
    (targetPrice currentPrice openInterest : ℚ)
    (h1 h2 : List LiquidationHeatmapEntry) (bids : List L2BookLevel)
    (params : SimulationParams) :
    simulateLongCascade expFn targetPrice currentPrice openInterest h1 bids params
      = simulateLongCascade expFn targetPrice currentPrice openInterest h2 bids params := rfl

/-- Claim C10: on every input — floor found or not, and even with
`targetPrice ≥ currentPrice` — the returned `finalPrice` is at most
`targetPrice`. -/
theorem finalPrice_le_targetPrice (expFn : ℚ → ℚ)
    (targetPrice currentPrice openInterest : ℚ)
    (heatmap : List LiquidationHeatmapEntry) (bids : List L2BookLevel)
    (params : SimulationParams) :
    (simulateLongCascade expFn targetPrice currentPrice openInterest heatmap bids
        params).finalPrice ≤ targetPrice := by
  unfold simulateLongCascade
  dsimp only
  split
  · exact le_refl _
  · exact stateAfter_floorPrice_le expFn targetPrice currentPrice
      (openInterest * params.longRatio) (parseBids bids) params BINS_COUNT

/-- Claim C8: CLOSED_* statuses are terminal — the PnL/time-exit
evaluation of a closed position issues no close command at any price
and any time, and applying the evaluation leaves the record
unchanged. -/
theorem closed_positions_terminal (pos : SimulatedPosition) (hypePrice now : ℚ)
    (h : pos.status = PositionStatus.CLOSED_TP ∨ pos.status = PositionStatus.CLOSED_SL
        ∨ pos.status = PositionStatus.CLOSED_TIME) :
    evaluatePositionExit pos hypePrice now = none ∧ applyExit pos hypePrice now = pos := by
  have hne : pos.status ≠ PositionStatus.OPEN := by
    rcases h with h | h | h <;> simp [h]
  have he : evaluatePositionExit pos hypePrice now = none := by
    unfold evaluatePositionExit
    rw [if_pos hne]
  exact ⟨he, by unfold applyExit; rw [he]⟩

/-- Witness for C8 at a concrete CLOSED_TP position. -/
theorem closed_positions_terminal_witness :
    evaluatePositionExit
        ⟨"p1", 10, Side.BUY, PositionStatus.CLOSED_TP, 1000, 5, some 12, some 100,
          some "t1", none⟩ 50 0 = none
    ∧ applyExit
        ⟨"p1", 10, Side.BUY, PositionStatus.CLOSED_TP, 1000, 5, some 12, some 100,
          some "t1", none⟩ 50 0
      = ⟨"p1", 10, Side.BUY, PositionStatus.CLOSED_TP, 1000, 5, some 12, some 100,
          some "t1", none⟩ :=
  closed_positions_terminal _ 50 0 (Or.inl rfl)

lemma largeOrderStep_skip (currentPrice : ℚ) (ids : List String) (t : EnrichedTwap)
    (h : t.sizeUsd > 1000000 → ("large_" ++ t.id) ∈ ids) :
    largeOrderStep currentPrice ([], ids) t = ([], ids) := by
  unfold largeOrderStep
  dsimp only
  by_cases hs : t.sizeUsd > 1000000
  · rw [if_pos hs, if_pos (h hs)]
  · rw [if_neg hs]

lemma largeOrderCommands_skip_all (currentPrice : ℚ) (twaps : List EnrichedTwap)
    (ids : List String)
    (h : ∀ t ∈ twaps, t.sizeUsd > 1000000 → ("large_" ++ t.id) ∈ ids) :
    largeOrderCommands currentPrice twaps ids = ([], ids) := by
  unfold largeOrderCommands
  induction twaps with
  | nil => rfl
  | cons t ts ih =>
    rw [List.foldl_cons,
      largeOrderStep_skip currentPrice ids t (h t (List.mem_cons_self t ts))]
    exact ih (fun u hu => h u (List.mem_cons_of_mem t hu))

/-- Claim C7: the large-order trigger is idempotent over materialized
trigger ids — when the existing positions already carry
`"large_" ++ id` for every order above $1M, the large-order pass of
`checkTriggers` emits no command, and the whole evaluation reduces to
the dense pass alone. -/
theorem large_trigger_idempotent (twaps : List EnrichedTwap) (currentPrice : ℚ)
    (positions : List SimulatedPosition)
    (h : ∀ t ∈ twaps, t.sizeUsd > 1000000
        → ("large_" ++ t.id) ∈ existingTriggerIdsOf positions) :
    (largeOrderCommands currentPrice twaps (existingTriggerIdsOf positions)).1 = []
    ∧ checkTriggers twaps currentPrice positions
      = if twaps.length = 0 ∨ currentPrice = 0 then []
        else denseOrderCommands currentPrice twaps (existingTriggerIdsOf positions) := by
  have hl := largeOrderCommands_skip_all currentPrice twaps (existingTriggerIdsOf positions) h
  refine ⟨by rw [hl], ?_⟩
  unfold checkTriggers
  split
  · rfl
  · dsimp only
    rw [hl]
    rfl

/-- Witness for C7: one order above $1M whose trigger id is already
materialized yields no large-order command. -/
theorem large_trigger_idempotent_witness :
    (largeOrderCommands 1 [⟨"big1", 5, "u", Side.SELL, 2000000, none, 30⟩]
        (existingTriggerIdsOf
          [⟨"p1", 10, Side.SELL, PositionStatus.OPEN, 1000, 5, none, none,
            some "large_big1", none⟩])).1 = []
    ∧ checkTriggers [⟨"big1", 5, "u", Side.SELL, 2000000, none, 30⟩] 1
        [⟨"p1", 10, Side.SELL, PositionStatus.OPEN, 1000, 5, none, none,
          some "large_big1", none⟩]
      = if ([⟨"big1", 5, "u", Side.SELL, 2000000, none, 30⟩] :
            List EnrichedTwap).length = 0 ∨ (1 : ℚ) = 0 then []
        else denseOrderCommands 1 [⟨"big1", 5, "u", Side.SELL, 2000000, none, 30⟩]
          (existingTriggerIdsOf
            [⟨"p1", 10, Side.SELL, PositionStatus.OPEN, 1000, 5, none, none,
              some "large_big1", none⟩]) :=
  large_trigger_idempotent _ _ _ (by decide)

/-- Claim C3: for each scanned bin, the increment of cumulative sell
pressure is `longOpenInterest * k * exp(a * (drawdown - x0)) *
(binStep / currentPrice)` when the drawdown exceeds `x0`, and exactly
zero otherwise, where `drawdown = (currentPrice - binPrice) /
currentPrice` and `longOpenInterest = openInterest * longRatio`. -/
theorem cumSell_increment_formula (expFn : ℚ → ℚ)
    (targetPrice currentPrice openInterest : ℚ) (bids : List L2BookLevel)
    (params : SimulationParams) (i : ℕ) :
    (stateAfter expFn targetPrice currentPrice (openInterest * params.longRatio)
        (parseBids bids) params (i + 1)).cumSellHype
      = (stateAfter expFn targetPrice currentPrice (openInterest * params.longRatio)
          (parseBids bids) params i).cumSellHype
        + (let binPrice := currentPrice - ((i : ℚ) + 1) * binStep currentPrice
           let drawdown := (currentPrice - binPrice) / currentPrice
           if drawdown > params.x0 then
             openInterest * params.longRatio * params.k
               * expFn (params.a * (drawdown - params.x0))
               * (binStep currentPrice / currentPrice)
           else 0) := by
  rw [stateAfter, scanBin_cumSellHype, stateAfter_currentBinPrice]
  congr 1
  unfold sellIncrement
  dsimp only
  have hbp : currentPrice - (i : ℚ) * binStep currentPrice - binStep currentPrice
      = currentPrice - ((i : ℚ) + 1) * binStep currentPrice := by ring
  rw [hbp]
  split_ifs
  · ring
  · rfl

lemma countP_noFloor_scanBin (expFn : ℚ → ℚ) (targetPrice currentPrice OIlong : ℚ)
    (activeBids : List Bid) (params : SimulationParams) (i : ℕ) (s : ScanState)
    (h : s.steps.countP isNoFloorStep = 0) :
    ((scanBin expFn targetPrice currentPrice OIlong activeBids params i s).steps).countP
      isNoFloorStep = 0 := by
  unfold scanBin
  dsimp only
  split
  · simp [List.countP_append, List.countP_cons, h, isNoFloorStep]
  · split
    · simp [List.countP_append, List.countP_cons, h, isNoFloorStep]
    · exact h

lemma countP_noFloor_stateAfter (expFn : ℚ → ℚ) (targetPrice currentPrice OIlong : ℚ)
    (activeBids : List Bid) (params : SimulationParams) (n : ℕ) :
    ((stateAfter expFn targetPrice currentPrice OIlong activeBids params n).steps).countP
      isNoFloorStep = 0 := by
  induction n with
  | zero => rfl
  | succ n ih =>
    exact countP_noFloor_scanBin expFn targetPrice currentPrice OIlong activeBids params n
      _ ih

/-- Claim C9: when the scan finds no intersection, the simulator does
not fail: it returns `finalPrice = targetPrice` and appends exactly
one explanatory step (liquidity depth exceeds estimated sell
pressure) as the last element of the trace. -/
theorem no_floor_defaults_to_target (expFn : ℚ → ℚ)
    (targetPrice currentPrice openInterest : ℚ)
    (heatmap : List LiquidationHeatmapEntry) (bids : List L2BookLevel)
    (params : SimulationParams)
    (h : (stateAfter expFn targetPrice currentPrice (openInterest * params.longRatio)
        (parseBids bids) params BINS_COUNT).foundFloor = false) :
    (simulateLongCascade expFn targetPrice currentPrice openInterest heatmap bids
        params).finalPrice = targetPrice
    ∧ ((simulateLongCascade expFn targetPrice currentPrice openInterest heatmap bids
        params).steps).countP isNoFloorStep = 1
    ∧ ((simulateLongCascade expFn targetPrice currentPrice openInterest heatmap bids
        params).steps).getLast?.map (fun st => st.description)
      = some StepDesc.noFloor := by
  unfold simulateLongCascade
  dsimp only
  rw [if_pos h]
  refine ⟨rfl, ?_, ?_⟩
  · simp only [List.countP_append,
      countP_noFloor_stateAfter expFn targetPrice currentPrice
        (openInterest * params.longRatio) (parseBids bids) params BINS_COUNT]
    simp [List.countP_cons, isNoFloorStep]
  · rw [List.getLast?_concat]
    rfl

/-- Witness for C9: zero open interest against one actual bid leaves
cumulative sell pressure at 0 below bid depth, so no floor is found. -/
theorem no_floor_defaults_to_target_witness :
    (stateAfter constOneExp 27 30 (0 * defaultParams.longRatio)
        (parseBids [⟨some 29, some 5⟩]) defaultParams BINS_COUNT).foundFloor = false
    ∧ (simulateLongCascade constOneExp 27 30 0 []
        [⟨some 29, some 5⟩] defaultParams).finalPrice = 27
    ∧ ((simulateLongCascade constOneExp 27 30 0 []
        [⟨some 29, some 5⟩] defaultParams).steps).countP isNoFloorStep = 1
    ∧ ((simulateLongCascade constOneExp 27 30 0 []
        [⟨some 29, some 5⟩] defaultParams).steps).getLast?.map
          (fun st => st.description) = some StepDesc.noFloor := by
  have h : (stateAfter constOneExp 27 30 (0 * defaultParams.longRatio)
      (parseBids [⟨some 29, some 5⟩]) defaultParams BINS_COUNT).foundFloor = false := by
    with_unfolding_all rfl
  exact ⟨h, no_floor_defaults_to_target constOneExp 27 30 0 [] [⟨some 29, some 5⟩]
    defaultParams h⟩

/-- Claim C1 (amended): when a cascade floor is found, the returned
`finalPrice` is the recorded floor price, and
`totalLiquidationTriggered` is the cumulative sell pressure
accumulated over the ENTIRE scanned range (all 100 bins, including
those below the floor) times the floor price. -/
theorem floor_found_result (expFn : ℚ → ℚ)
    (targetPrice currentPrice openInterest : ℚ)
    (heatmap : List LiquidationHeatmapEntry) (bids : List L2BookLevel)
    (params : SimulationParams)
    (h : (stateAfter expFn targetPrice currentPrice (openInterest * params.longRatio)
        (parseBids bids) params BINS_COUNT).foundFloor = true) :
    (simulateLongCascade expFn targetPrice currentPrice openInterest heatmap bids
        params).finalPrice
      = (stateAfter expFn targetPrice currentPrice (openInterest * params.longRatio)
          (parseBids bids) params BINS_COUNT).floorPrice
    ∧ (simulateLongCascade expFn targetPrice currentPrice openInterest heatmap bids
        params).totalLiquidationTriggered
      = (stateAfter expFn targetPrice currentPrice (openInterest * params.longRatio)
          (parseBids bids) params BINS_COUNT).cumSellHype
        * (stateAfter expFn targetPrice currentPrice (openInterest * params.longRatio)
            (parseBids bids) params BINS_COUNT).floorPrice := by
  unfold simulateLongCascade
  dsimp only
  rw [if_neg (by simp [h])]
  exact ⟨rfl, rfl⟩

/-- Witness for C1's amended theorem at a concrete floor-finding
input. -/
theorem floor_found_result_witness :
    (stateAfter constOneExp (299/10) 30 (10000000 * defaultParams.longRatio)
        (parseBids []) defaultParams BINS_COUNT).foundFloor = true
    ∧ (simulateLongCascade constOneExp (299/10) 30 10000000 [] []
        defaultParams).finalPrice
      = (stateAfter constOneExp (299/10) 30 (10000000 * defaultParams.longRatio)
          (parseBids []) defaultParams BINS_COUNT).floorPrice
    ∧ (simulateLongCascade constOneExp (299/10) 30 10000000 [] []
        defaultParams).totalLiquidationTriggered
      = (stateAfter constOneExp (299/10) 30 (10000000 * defaultParams.longRatio)
          (parseBids []) defaultParams BINS_COUNT).cumSellHype
        * (stateAfter constOneExp (299/10) 30 (10000000 * defaultParams.longRatio)
            (parseBids []) defaultParams BINS_COUNT).floorPrice := by
  have h : (stateAfter constOneExp (299/10) 30 (10000000 * defaultParams.longRatio)
      (parseBids []) defaultParams BINS_COUNT).foundFloor = true := by
    with_unfolding_all rfl
  exact ⟨h, floor_found_result constOneExp (299/10) 30 10000000 [] [] defaultParams h⟩

/-- Counterexample to claim C1 as stated: at a concrete input the
floor is found at the second scanned bin where the cumulative sell
pressure is still 0, yet the returned `totalLiquidationTriggered` is
nonzero — it is not the floor-time pressure times the floor price,
because accumulation continues after the floor bin. -/
theorem totalLiquidation_at_floor_cex :
    (stateAfter constOneExp (299/10) 30 (10000000 * defaultParams.longRatio)
        (parseBids []) defaultParams BINS_COUNT).foundFloor = true
    ∧ cumSellAtFloor constOneExp (299/10) 30 (10000000 * defaultParams.longRatio)
        (parseBids []) defaultParams = 0
    ∧ (simulateLongCascade constOneExp (299/10) 30 10000000 [] []
        defaultParams).totalLiquidationTriggered = 4840560
    ∧ (simulateLongCascade constOneExp (299/10) 30 10000000 [] []
        defaultParams).totalLiquidationTriggered
      ≠ cumSellAtFloor constOneExp (299/10) 30 (10000000 * defaultParams.longRatio)
          (parseBids []) defaultParams
        * (simulateLongCascade constOneExp (299/10) 30 10000000 [] []
            defaultParams).finalPrice := by
  have h1 : (stateAfter constOneExp (299/10) 30 (10000000 * defaultParams.longRatio)
      (parseBids []) defaultParams BINS_COUNT).foundFloor = true := by
    with_unfolding_all rfl
  have h2 : cumSellAtFloor constOneExp (299/10) 30 (10000000 * defaultParams.longRatio)
      (parseBids []) defaultParams = 0 := by
    with_unfolding_all rfl
  have h3 : (simulateLongCascade constOneExp (299/10) 30 10000000 [] []
      defaultParams).totalLiquidationTriggered = 4840560 := by
    with_unfolding_all rfl
  refine ⟨h1, h2, h3, ?_⟩
  rw [h2, h3, zero_mul]
  norm_num

lemma stateAfter_cumBid_nil (expFn : ℚ → ℚ) (targetPrice currentPrice OIlong : ℚ)
    (params : SimulationParams) (n : ℕ) :
    (stateAfter expFn targetPrice currentPrice OIlong [] params n).cumBidHype = 0 := by
  induction n with
  | zero => rfl
  | succ n ih =>
    rw [stateAfter, scanBin_cumBidHype]
    exact ih

lemma binStep_nonneg (currentPrice : ℚ) (hc : 0 ≤ currentPrice) :
    0 ≤ binStep currentPrice := by
  unfold binStep RANGE_PCT
  apply div_nonneg
  · exact mul_nonneg hc (by norm_num)
  · exact Nat.cast_nonneg _

lemma sellIncrement_nonneg (expFn : ℚ → ℚ) (params : SimulationParams)
    (currentPrice OIlong bp : ℚ) (hc : 0 ≤ currentPrice) (hk : 0 ≤ params.k)
    (hoi : 0 ≤ OIlong) (hexp : ∀ x, 0 ≤ expFn x) :
    0 ≤ sellIncrement expFn params currentPrice OIlong bp := by
  unfold sellIncrement
  dsimp only
  split
  · exact mul_nonneg (mul_nonneg hoi (mul_nonneg hk (hexp _)))
      (div_nonneg (binStep_nonneg currentPrice hc) hc)
  · exact le_refl 0

lemma stateAfter_cumSell_nonneg (expFn : ℚ → ℚ)
    (targetPrice currentPrice OIlong : ℚ) (activeBids : List Bid)
    (params : SimulationParams) (hc : 0 ≤ currentPrice) (hk : 0 ≤ params.k)
    (hoi : 0 ≤ OIlong) (hexp : ∀ x, 0 ≤ expFn x) (n : ℕ) :
    0 ≤ (stateAfter expFn targetPrice currentPrice OIlong activeBids params n).cumSellHype := by
  induction n with
  | zero => exact le_refl 0
  | succ n ih =>
    rw [stateAfter, scanBin_cumSellHype]
    exact add_nonneg ih
      (sellIncrement_nonneg expFn params currentPrice OIlong _ hc hk hoi hexp)

lemma empty_bids_scan_inv (expFn : ℚ → ℚ) (targetPrice currentPrice OIlong : ℚ)
    (params : SimulationParams) (hc : 0 < currentPrice) (hk : 0 ≤ params.k)
    (hoi : 0 ≤ OIlong) (hexp : ∀ x, 0 ≤ expFn x)
    (htc : targetPrice < currentPrice) :
    ∀ n : ℕ,
      ((stateAfter expFn targetPrice currentPrice OIlong [] params n).foundFloor = true →
        (stateAfter expFn targetPrice currentPrice OIlong [] params n).floorPrice
            ≤ targetPrice
        ∧ targetPrice
            < (stateAfter expFn targetPrice currentPrice OIlong [] params n).floorPrice
              + binStep currentPrice
        ∧ ∃ i : ℕ, 1 ≤ i ∧ i ≤ n
            ∧ (stateAfter expFn targetPrice currentPrice OIlong [] params n).floorPrice
              = currentPrice - i * binStep currentPrice)
      ∧ ((stateAfter expFn targetPrice currentPrice OIlong [] params n).foundFloor = false →
        targetPrice < currentPrice - n * binStep currentPrice) := by
  intro n
  induction n with
  | zero =>
    refine ⟨fun h => absurd h (by simp [stateAfter]), fun _ => by simpa using htc⟩
  | succ n ih =>
    have hbin := stateAfter_currentBinPrice expFn targetPrice currentPrice OIlong [] params n
    cases hf : (stateAfter expFn targetPrice currentPrice OIlong [] params n).foundFloor with
    | true =>
      have hnot : ¬ hitCond expFn targetPrice currentPrice OIlong [] params
          (stateAfter expFn targetPrice currentPrice OIlong [] params n) :=
        fun hcond => absurd hcond.1 (by simp [hf])
      obtain ⟨hft, hfp⟩ :=
        scanBin_not_hit expFn targetPrice currentPrice OIlong [] params n _ hnot
      rw [stateAfter]
      constructor
      · intro _
        rw [hfp]
        obtain ⟨ha, hb, i, h1i, h2i, hval⟩ := ih.1 hf
        exact ⟨ha, hb, i, h1i, Nat.le_succ_of_le h2i, hval⟩
      · intro hfalse
        rw [hft, hf] at hfalse
        simp at hfalse
    | false =>
      by_cases hbp : (stateAfter expFn targetPrice currentPrice OIlong [] params
          n).currentBinPrice - binStep currentPrice ≤ targetPrice
      · have hhit : hitCond expFn targetPrice currentPrice OIlong [] params
            (stateAfter expFn targetPrice currentPrice OIlong [] params n) := by
          refine ⟨hf, hbp, ?_⟩
          show (stateAfter expFn targetPrice currentPrice OIlong [] params n).cumSellHype
              + sellIncrement expFn params currentPrice OIlong _
            ≥ (stateAfter expFn targetPrice currentPrice OIlong [] params n).cumBidHype
          rw [stateAfter_cumBid_nil]
          exact add_nonneg
            (stateAfter_cumSell_nonneg expFn targetPrice currentPrice OIlong [] params
              hc.le hk hoi hexp n)
            (sellIncrement_nonneg expFn params currentPrice OIlong _ hc.le hk hoi hexp)
        obtain ⟨hft, hfp⟩ :=
          scanBin_hit expFn targetPrice currentPrice OIlong [] params n _ hhit
        have hlow := ih.2 hf
        rw [stateAfter]
        constructor
        · intro _
          rw [hfp, hbin]
          refine ⟨by rw [hbin] at hbp; exact hbp, by linarith,
            ⟨n + 1, Nat.one_le_iff_ne_zero.mpr (Nat.succ_ne_zero n), le_refl _, ?_⟩⟩
          push_cast
          ring
        · intro hfalse
          rw [hft] at hfalse
          simp at hfalse
      · have hnot : ¬ hitCond expFn targetPrice currentPrice OIlong [] params
            (stateAfter expFn targetPrice currentPrice OIlong [] params n) :=
          fun hcond => hbp hcond.2.1
        obtain ⟨hft, hfp⟩ :=
          scanBin_not_hit expFn targetPrice currentPrice OIlong [] params n _ hnot
        rw [stateAfter]
        constructor
        · intro htrue
          rw [hft, hf] at htrue
          simp at htrue
        · intro _
          have hlt : targetPrice
              < (stateAfter expFn targetPrice currentPrice OIlong [] params
                  n).currentBinPrice - binStep currentPrice := not_le.mp hbp
          rw [hbin] at hlt
          push_cast
          linarith

/-- Claim C2 (amended): with an empty bid ladder (and nonnegative
pressure terms, a positive current price, and a target inside the
scanned range), the floor is found as soon as the scan reaches the
target: `finalPrice` is the first (highest) scanned bin price at or
below `targetPrice` — one grid point `currentPrice - i * binStep`
within one `binStep` below the target — not the lowest scanned bin
price. -/
theorem empty_bids_floor_first_bin (expFn : ℚ → ℚ)
    (targetPrice currentPrice openInterest : ℚ)
    (heatmap : List LiquidationHeatmapEntry) (params : SimulationParams)
    (hc : 0 < currentPrice) (hk : 0 ≤ params.k)
    (hoi : 0 ≤ openInterest * params.longRatio) (hexp : ∀ x, 0 ≤ expFn x)
    (htc : targetPrice < currentPrice)
    (hlow : currentPrice - 100 * binStep currentPrice ≤ targetPrice) :
    (simulateLongCascade expFn targetPrice currentPrice openInterest heatmap []
        params).finalPrice ≤ targetPrice
    ∧ targetPrice < (simulateLongCascade expFn targetPrice currentPrice openInterest
        heatmap [] params).finalPrice + binStep currentPrice
    ∧ ∃ i : ℕ, 1 ≤ i ∧ i ≤ 100
        ∧ (simulateLongCascade expFn targetPrice currentPrice openInterest heatmap []
            params).finalPrice = currentPrice - i * binStep currentPrice := by
  have hinv := empty_bids_scan_inv expFn targetPrice currentPrice
    (openInterest * params.longRatio) params hc hk hoi hexp htc BINS_COUNT
  have hpb : parseBids ([] : List L2BookLevel) = [] := rfl
  have hft : (stateAfter expFn targetPrice currentPrice
      (openInterest * params.longRatio) [] params BINS_COUNT).foundFloor = true := by
    cases hff : (stateAfter expFn targetPrice currentPrice
        (openInterest * params.longRatio) [] params BINS_COUNT).foundFloor with
    | true => rfl
    | false =>
      exfalso
      have := hinv.2 hff
      rw [show BINS_COUNT = 100 from rfl] at this
      push_cast at this
      linarith
  unfold simulateLongCascade
  dsimp only
  rw [hpb, if_neg (by simp [hft])]
  obtain ⟨ha, hb, i, h1i, h2i, hval⟩ := hinv.1 hft
  exact ⟨ha, hb, i, h1i, h2i, hval⟩

/-- Witness for C2's amended theorem: target 29 below current price
30 with default parameters and the constant exponential model. -/
theorem empty_bids_floor_first_bin_witness :
    (simulateLongCascade constOneExp 29 30 10000000 [] [] defaultParams).finalPrice ≤ 29
    ∧ (29 : ℚ) < (simulateLongCascade constOneExp 29 30 10000000 [] []
        defaultParams).finalPrice + binStep 30
    ∧ ∃ i : ℕ, 1 ≤ i ∧ i ≤ 100
        ∧ (simulateLongCascade constOneExp 29 30 10000000 [] []
            defaultParams).finalPrice = 30 - i * binStep 30 :=
  empty_bids_floor_first_bin constOneExp 29 30 10000000 [] defaultParams
    (by norm_num) (by norm_num [defaultParams]) (by norm_num [defaultParams])
    (fun x => by norm_num [constOneExp]) (by norm_num)
    (by norm_num [binStep, RANGE_PCT, BINS_COUNT])

/-- Counterexample to claim C2 as stated: with an empty bid ladder at
target 29, current price 30, the returned `finalPrice` is 28.98 (the
first scanned bin at or below the target, because `0 ≥ 0` fires the
intersection immediately), not the lowest scanned bin price 24. -/
theorem empty_bids_lowest_bin_cex :
    (simulateLongCascade constOneExp 29 30 10000000 [] [] defaultParams).finalPrice
        = 1449/50
    ∧ (30 : ℚ) - 100 * binStep 30 = 24
    ∧ (simulateLongCascade constOneExp 29 30 10000000 [] [] defaultParams).finalPrice
        ≠ 30 - 100 * binStep 30 := by
  have h1 : (simulateLongCascade constOneExp 29 30 10000000 [] []
      defaultParams).finalPrice = 1449/50 := by
    with_unfolding_all rfl
  have h2 : (30 : ℚ) - 100 * binStep 30 = 24 := by
    with_unfolding_all rfl
  exact ⟨h1, h2, by rw [h1, h2]; norm_num⟩

lemma stateAfter_target_indep (expFn : ℚ → ℚ) (t1 t2 currentPrice OIlong : ℚ)
    (activeBids : List Bid) (params : SimulationParams) (n : ℕ) :
    (stateAfter expFn t2 currentPrice OIlong activeBids params n).cumSellHype
        = (stateAfter expFn t1 currentPrice OIlong activeBids params n).cumSellHype
    ∧ (stateAfter expFn t2 currentPrice OIlong activeBids params n).cumBidHype
        = (stateAfter expFn t1 currentPrice OIlong activeBids params n).cumBidHype := by
  induction n with
  | zero => exact ⟨rfl, rfl⟩
  | succ n ih =>
    constructor
    · rw [stateAfter, stateAfter, scanBin_cumSellHype, scanBin_cumSellHype,
        stateAfter_currentBinPrice, stateAfter_currentBinPrice, ih.1]
    · rw [stateAfter, stateAfter, scanBin_cumBidHype, scanBin_cumBidHype,
        stateAfter_currentBinPrice, stateAfter_currentBinPrice, ih.2]

lemma floor_mono_inv (expFn : ℚ → ℚ) (t1 t2 currentPrice OIlong : ℚ)
    (activeBids : List Bid) (params : SimulationParams)
    (hc : 0 ≤ currentPrice) (ht : t2 ≤ t1) :
    ∀ n : ℕ,
      ((stateAfter expFn t1 currentPrice OIlong activeBids params n).foundFloor = true →
        (stateAfter expFn t1 currentPrice OIlong activeBids params n).currentBinPrice
          ≤ (stateAfter expFn t1 currentPrice OIlong activeBids params n).floorPrice)
      ∧ ((stateAfter expFn t2 currentPrice OIlong activeBids params n).foundFloor = true →
        (stateAfter expFn t1 currentPrice OIlong activeBids params n).foundFloor = true
        ∧ (stateAfter expFn t2 currentPrice OIlong activeBids params n).floorPrice
          ≤ (stateAfter expFn t1 currentPrice OIlong activeBids params n).floorPrice) := by
  have hstep : 0 ≤ binStep currentPrice := binStep_nonneg currentPrice hc
  intro n
  induction n with
  | zero =>
    exact ⟨fun h => absurd h (by simp [stateAfter]),
      fun h => absurd h (by simp [stateAfter])⟩
  | succ n ih =>
    have hbin1 := stateAfter_currentBinPrice expFn t1 currentPrice OIlong activeBids params n
    have hbin2 := stateAfter_currentBinPrice expFn t2 currentPrice OIlong activeBids params n
    have hnum := stateAfter_target_indep expFn t1 t2 currentPrice OIlong activeBids params n
    constructor
    · intro hfound
      by_cases hhit : hitCond expFn t1 currentPrice OIlong activeBids params
          (stateAfter expFn t1 currentPrice OIlong activeBids params n)
      · obtain ⟨_, hfp⟩ :=
          scanBin_hit expFn t1 currentPrice OIlong activeBids params n _ hhit
        rw [stateAfter, hfp, scanBin_currentBinPrice]
      · obtain ⟨hft, hfp⟩ :=
          scanBin_not_hit expFn t1 currentPrice OIlong activeBids params n _ hhit
        cases hf1 : (stateAfter expFn t1 currentPrice OIlong activeBids params
            n).foundFloor with
        | true =>
          have hple := ih.1 hf1
          rw [stateAfter, hfp, scanBin_currentBinPrice]
          linarith
        | false =>
          rw [stateAfter, hft, hf1] at hfound
          simp at hfound
    · intro hfound2
      cases hf2 : (stateAfter expFn t2 currentPrice OIlong activeBids params
          n).foundFloor with
      | true =>
        obtain ⟨hf1, hfl⟩ := ih.2 hf2
        have hnot2 : ¬ hitCond expFn t2 currentPrice OIlong activeBids params
            (stateAfter expFn t2 currentPrice OIlong activeBids params n) :=
          fun hcond => absurd hcond.1 (by simp [hf2])
        obtain ⟨hft2, hfp2⟩ :=
          scanBin_not_hit expFn t2 currentPrice OIlong activeBids params n _ hnot2
        have hnot1 : ¬ hitCond expFn t1 currentPrice OIlong activeBids params
            (stateAfter expFn t1 currentPrice OIlong activeBids params n) :=
          fun hcond => absurd hcond.1 (by simp [hf1])
        obtain ⟨hft1, hfp1⟩ :=
          scanBin_not_hit expFn t1 currentPrice OIlong activeBids params n _ hnot1
        rw [stateAfter, stateAfter, hft1, hfp1, hfp2]
        exact ⟨hf1, hfl⟩
      | false =>
        by_cases hhit2 : hitCond expFn t2 currentPrice OIlong activeBids params
            (stateAfter expFn t2 currentPrice OIlong activeBids params n)
        · obtain ⟨hft2, hfp2⟩ :=
            scanBin_hit expFn t2 currentPrice OIlong activeBids params n _ hhit2
          cases hf1 : (stateAfter expFn t1 currentPrice OIlong activeBids params
              n).foundFloor with
          | false =>
            have hhit1 : hitCond expFn t1 currentPrice OIlong activeBids params
                (stateAfter expFn t1 currentPrice OIlong activeBids params n) := by
              have h2le := hhit2.2.1
              have h2ge := hhit2.2.2
              refine ⟨hf1, ?_, ?_⟩
              · rw [hbin1]
                rw [hbin2] at h2le
                linarith
              · rw [hbin2, hnum.1, hnum.2] at h2ge
                rw [hbin1]
                exact h2ge
            obtain ⟨hft1, hfp1⟩ :=
              scanBin_hit expFn t1 currentPrice OIlong activeBids params n _ hhit1
            rw [stateAfter, stateAfter, hft1, hfp1, hfp2, hbin1, hbin2]
            exact ⟨rfl, le_refl _⟩
          | true =>
            have hnot1 : ¬ hitCond expFn t1 currentPrice OIlong activeBids params
                (stateAfter expFn t1 currentPrice OIlong activeBids params n) :=
              fun hcond => absurd hcond.1 (by simp [hf1])
            obtain ⟨hft1, hfp1⟩ :=
              scanBin_not_hit expFn t1 currentPrice OIlong activeBids params n _ hnot1
            have hple := ih.1 hf1
            rw [stateAfter, stateAfter, hft1, hfp1, hfp2]
            refine ⟨hf1, ?_⟩
            rw [hbin2]
            rw [hbin1] at hple
            linarith
        · obtain ⟨hft2, _⟩ :=
            scanBin_not_hit expFn t2 currentPrice OIlong activeBids params n _ hhit2
          rw [stateAfter, hft2, hf2] at hfound2
          simp at hfound2

/-- Claim C5: for fixed current price, open interest, bids and
parameters, the cascade floor is monotone in the target — when floors
are found for both targets, the lower target never yields a higher
`finalPrice` (stated for a nonnegative current price, prices being
nonnegative by precondition). -/
theorem floor_monotone_in_target (expFn : ℚ → ℚ)
    (currentPrice openInterest : ℚ) (heatmap : List LiquidationHeatmapEntry)
    (bids : List L2BookLevel) (params : SimulationParams) (t1 t2 : ℚ)
    (hc : 0 ≤ currentPrice) (ht : t2 < t1)
    (h1 : (stateAfter expFn t1 currentPrice (openInterest * params.longRatio)
        (parseBids bids) params BINS_COUNT).foundFloor = true)
    (h2 : (stateAfter expFn t2 currentPrice (openInterest * params.longRatio)
        (parseBids bids) params BINS_COUNT).foundFloor = true) :
    (simulateLongCascade expFn t2 currentPrice openInterest heatmap bids
        params).finalPrice
      ≤ (simulateLongCascade expFn t1 currentPrice openInterest heatmap bids
          params).finalPrice := by
  have hinv := (floor_mono_inv expFn t1 t2 currentPrice
    (openInterest * params.longRatio) (parseBids bids) params hc ht.le BINS_COUNT).2 h2
  unfold simulateLongCascade
  dsimp only
  rw [if_neg (by simp [h2]), if_neg (by simp [h1])]
  exact hinv.2

/-- Witness for C5: targets 28 < 29 at current price 30 with empty
bids both find floors, and the floor for 28 is no higher. -/
theorem floor_monotone_in_target_witness :
    (simulateLongCascade constOneExp 28 30 10000000 [] [] defaultParams).finalPrice
      ≤ (simulateLongCascade constOneExp 29 30 10000000 [] [] defaultParams).finalPrice := by
  have h1 : (stateAfter constOneExp 29 30 (10000000 * defaultParams.longRatio)
      (parseBids []) defaultParams BINS_COUNT).foundFloor = true := by
    with_unfolding_all rfl
  have h2 : (stateAfter constOneExp 28 30 (10000000 * defaultParams.longRatio)
      (parseBids []) defaultParams BINS_COUNT).foundFloor = true := by
    with_unfolding_all rfl
  exact floor_monotone_in_target constOneExp 30 10000000 [] [] defaultParams 29 28
    (by norm_num) (by norm_num) h1 h2

lemma denseLoop_succ (cp : ℚ) (sorted : List EnrichedTwap) (fuel i : ℕ)
    (ids : List String) :
    denseLoop cp sorted (fuel + 1) i ids
      = if i ≤ sorted.length - 10 then
          (denseBody cp sorted i ids).1 ++
            denseLoop cp sorted fuel
              (denseBody cp sorted i ids).2.1
              (denseBody cp sorted i ids).2.2
        else [] := rfl

lemma denseLoop_stop (cp : ℚ) (sorted : List EnrichedTwap) (fuel i : ℕ)
    (ids : List String) (h : ¬ i ≤ sorted.length - 10) :
    denseLoop cp sorted fuel i ids = [] := by
  cases fuel with
  | zero => rfl
  | succ fuel => rw [denseLoop_succ, if_neg h]

lemma denseBody_ten_fire (cp : ℚ) (w0 : EnrichedTwap) (rest : List EnrichedTwap)
    (hlen : (w0 :: rest).length = 10)
    (hside : ∀ t ∈ w0 :: rest, t.side = Side.BUY)
    (hspan : ∀ t ∈ w0 :: rest, t.time ≤ w0.time + 540000) :
    denseBody cp (w0 :: rest) 0 []
      = ([⟨Side.BUY,
            twapEntryPrice ((w0 :: rest).getLast (List.cons_ne_nil w0 rest)) cp,
            "dense_" ++ w0.id ++ "_BUY",
            twapEndTime ((w0 :: rest).getLast (List.cons_ne_nil w0 rest))⟩],
         10, ["dense_" ++ w0.id ++ "_BUY"]) := by
  have hfil : (w0 :: rest).filter (fun t => t.time ≤ w0.time + 600000) = w0 :: rest :=
    List.filter_eq_self.mpr (fun a ha => by
      simp only [decide_eq_true_eq]
      have := hspan a ha
      linarith)
  have hbuys : (w0 :: rest).filter (fun t => t.side = Side.BUY) = w0 :: rest :=
    List.filter_eq_self.mpr (fun a ha => by simp [hside a ha])
  have hsells : (w0 :: rest).filter (fun t => t.side = Side.SELL) = [] := by
    rw [List.filter_eq_nil_iff]
    intro a ha
    simp [hside a ha]
  unfold denseBody
  rw [List.drop_zero]
  dsimp only
  rw [hfil, hbuys, hsells]
  rw [if_pos (by rw [hlen])]
  unfold denseSideFire
  dsimp only
  rw [if_pos (by rw [hlen])]
  rw [if_neg (List.not_mem_nil _)]
  rw [if_neg (by rw [List.length_nil]; omega)]
  dsimp only
  rw [hlen]
  simp

lemma denseBody_window_too_sparse (cp : ℚ) (v0 : EnrichedTwap)
    (vrest : List EnrichedTwap) (ids : List String)
    (hlen2 : (v0 :: vrest).length = 10)
    (hbad : ∃ t ∈ v0 :: vrest, v0.time + 600000 < t.time) :
    denseBody cp (v0 :: vrest) 0 ids = ([], 1, ids) := by
  obtain ⟨tb, htb, htgt⟩ := hbad
  have hfl : ((v0 :: vrest).filter (fun t => t.time ≤ v0.time + 600000)).length ≤ 9 := by
    obtain ⟨s, t, hst⟩ := List.append_of_mem htb
    have hco := congrArg List.length hst
    rw [hlen2] at hco
    simp only [List.length_append, List.length_cons] at hco
    rw [hst, List.filter_append,
      List.filter_cons_of_neg (by simp only [decide_eq_true_eq]; intro hcon; linarith)]
    rw [List.length_append]
    have h1 := List.length_filter_le (fun t => decide (t.time ≤ v0.time + 600000)) s
    have h2 := List.length_filter_le (fun t => decide (t.time ≤ v0.time + 600000)) t
    omega
  unfold denseBody
  rw [List.drop_zero]
  dsimp only
  rw [if_neg (by omega)]

/-- Claim C6: the dense-cluster trigger fires exactly at the
10-orders-in-10-minutes threshold — ten BUY orders spanning 9 minutes
(sorted by time, all below the large-order size, no pre-existing
trigger ids) make trigger evaluation emit exactly one dense BUY open
command, while ten such orders whose span exceeds the 10-minute
window (11 minutes) emit none. -/
theorem dense_cluster_threshold
    (cp : ℚ) (hcp : cp ≠ 0)
    (w0 : EnrichedTwap) (rest : List EnrichedTwap)
    (hlen : (w0 :: rest).length = 10)
    (hsort : List.Sorted (fun a b => a.time ≤ b.time) (w0 :: rest))
    (hside : ∀ t ∈ w0 :: rest, t.side = Side.BUY)
    (hsize : ∀ t ∈ w0 :: rest, t.sizeUsd ≤ 1000000)
    (hspan : ∀ t ∈ w0 :: rest, t.time ≤ w0.time + 540000)
    (v0 : EnrichedTwap) (vrest : List EnrichedTwap)
    (hlen2 : (v0 :: vrest).length = 10)
    (hsort2 : List.Sorted (fun a b => a.time ≤ b.time) (v0 :: vrest))
    (hside2 : ∀ t ∈ v0 :: vrest, t.side = Side.BUY)
    (hsize2 : ∀ t ∈ v0 :: vrest, t.sizeUsd ≤ 1000000)
    (hspan2 : ∃ t ∈ v0 :: vrest, v0.time + 600000 < t.time) :
    (checkTriggers (w0 :: rest) cp []).map (fun cmd => cmd.direction) = [Side.BUY]
    ∧ checkTriggers (v0 :: vrest) cp [] = [] := by
  have hred : ∀ l : List EnrichedTwap, l.length = 10 →
      List.Sorted (fun a b => a.time ≤ b.time) l →
      (∀ t ∈ l, t.sizeUsd ≤ 1000000) →
      checkTriggers l cp [] = denseLoop cp l 10 0 [] := by
    intro l hl hs hsz
    unfold checkTriggers
    rw [if_neg (by push_neg; exact ⟨by rw [hl]; norm_num, hcp⟩)]
    dsimp only
    rw [show existingTriggerIdsOf [] = [] from rfl]
    rw [largeOrderCommands_skip_all cp l []
      (fun t ht hgt => absurd hgt (not_lt.mpr (hsz t ht)))]
    dsimp only
    rw [List.nil_append]
    unfold denseOrderCommands
    rw [List.Sorted.insertionSort_eq hs]
    rw [if_neg (by rw [hl]; norm_num)]
    rw [hl]
  constructor
  · rw [hred _ hlen hsort hsize]
    rw [show (10 : ℕ) = 9 + 1 from rfl, denseLoop_succ]
    rw [if_pos (Nat.zero_le _)]
    rw [denseBody_ten_fire cp w0 rest hlen hside hspan]
    dsimp only
    rw [denseLoop_stop cp _ 9 10 _ (by rw [hlen]; omega)]
    simp
  · rw [hred _ hlen2 hsort2 hsize2]
    rw [show (10 : ℕ) = 9 + 1 from rfl, denseLoop_succ]
    rw [if_pos (Nat.zero_le _)]
    rw [denseBody_window_too_sparse cp v0 vrest [] hlen2 hspan2]
    dsimp only
    rw [List.nil_append]
    exact denseLoop_stop cp _ 9 1 _ (by rw [hlen2]; omega)

/-- Witness for C6 at the two synthetic order lists (spans of 9 and 11
minutes). -/
theorem dense_cluster_threshold_witness :
    (checkTriggers tenBuyOrdersNine 1 []).map (fun cmd => cmd.direction) = [Side.BUY]
    ∧ checkTriggers tenBuyOrdersEleven 1 [] = [] := by
  have h := dense_cluster_threshold 1 one_ne_zero
    (mkBuyTwap "o0" 0)
    [mkBuyTwap "o1" 60000, mkBuyTwap "o2" 120000,
     mkBuyTwap "o3" 180000, mkBuyTwap "o4" 240000, mkBuyTwap "o5" 300000,
     mkBuyTwap "o6" 360000, mkBuyTwap "o7" 420000, mkBuyTwap "o8" 480000,
     mkBuyTwap "o9" 540000]
    rfl
    (by with_unfolding_all decide)
    (by with_unfolding_all decide)
    (by with_unfolding_all decide)
    (by with_unfolding_all decide)
    (mkBuyTwap "p0" 0)
    [mkBuyTwap "p1" 60000, mkBuyTwap "p2" 120000,
     mkBuyTwap "p3" 180000, mkBuyTwap "p4" 240000, mkBuyTwap "p5" 300000,
     mkBuyTwap "p6" 360000, mkBuyTwap "p7" 420000, mkBuyTwap "p8" 480000,
     mkBuyTwap "p9" 660000]
    rfl
    (by with_unfolding_all decide)
    (by with_unfolding_all decide)
    (by with_unfolding_all decide)
    (by with_unfolding_all decide)
  exact h

end HypeMonitor
